import Mathlib

/-!
Shallow embedding of the badge-animation core of a browser extension's
background service worker (`src/service_worker.js`).

Pure helpers (`hashCode`, `badgeOverallPerf`, `badgeMetric`, the
`toFixed(2)` formatting) are embedded as Lean functions; the animation
sequencer `animateBadges` is embedded as a small-step state machine with
an explicit task queue driven by a nondeterministic scheduler, because
its behaviour (generation-based cancellation, timed delays, tab-liveness
checks) spans several suspension points.

JavaScript numbers carried by metric readings are modelled as rationals;
the 32-bit wrap-around of the URL hash is modelled explicitly on `Int`.
-/

namespace WebVitals

/-- Core Web Vitals threshold for largest contentful paint (ms). -/
def LCP_THRESHOLD : ℚ := 2500

/-- Core Web Vitals threshold for first input delay (ms). -/
def FID_THRESHOLD : ℚ := 100

/-- Core Web Vitals threshold for interaction to next paint (ms). -/
def INP_THRESHOLD : ℚ := 200

/-- Core Web Vitals threshold for cumulative layout shift (unitless):
the source constant `0.1`, i.e. the rational one tenth. -/
def CLS_THRESHOLD : ℚ := mkRat 1 10

/-- JavaScript `ToInt32`: wrap an integer into the signed 32-bit range. -/
def toInt32 (z : Int) : Int := (z + 2147483648) % 4294967296 - 2147483648

/-- One step of the rolling hash in `hashCode`:
`hash = (hash << 5) - hash + char; hash = hash & hash`.
The shift wraps its result to 32 bits, the following subtraction and
addition are exact, and `hash & hash` wraps again to 32 bits. -/
def hashStep (hash : Int) (c : Nat) : Int :=
  toInt32 (toInt32 (hash * 32) - hash + c)

/-- Source `hashCode(str)`: hash the URL (a list of UTF-16 code
units) and return the numeric hash as a string; the empty string maps to
the empty string. -/
def hashCode (s : List Nat) : String :=
  if s.length = 0 then ""
  else toString (s.foldl hashStep 0)

/-- ECMAScript `Number.prototype.toFixed(2)`: the sign is split off, the
magnitude is scaled by 100 and rounded to the nearest integer with ties
going to the larger integer, and the result is printed with two decimal
digits.  With `|q| = a / b` in lowest terms the rounded numerator is
`⌊(|q| * 100) + 1/2⌋ = (200 * a + b) / (2 * b)` in natural division. -/
def toFixed2 (q : ℚ) : String :=
  let sgn := if q < 0 then "-" else ""
  let a : Nat := q.num.natAbs
  let b : Nat := q.den
  let n : Nat := (200 * a + b) / (2 * b)
  sgn ++ toString (n / 100) ++ "." ++
    (if n % 100 < 10 then "0" else "") ++ toString (n % 100)

/-- Source `tabid || tabs[0].id`: a zero (falsy) tab id falls back to the id of
the currently active tab found by `chrome.tabs.query`. -/
def currentTabOf (tabid activeTab : Nat) : Nat :=
  if tabid = 0 then activeTab else tabid

/-- One `chrome.action` call made by a badge renderer. -/
inductive Action where
  | setIcon (path : String) (tabId : Nat)
  | setBadgeBackgroundColor (color : String) (tabId : Nat)
  | setBadgeText (text : String) (tabId : Nat)
deriving DecidableEq, Repr

/-- Source `badgeOverallPerf(badgeCategory, tabid)`: the list of `chrome.action`
calls performed in its `chrome.tabs.query` callback. -/
def badgeOverallPerf (badgeCategory : String) (tabid activeTab : Nat) : List Action :=
  let currentTab := currentTabOf tabid activeTab
  match badgeCategory with
  | "POOR" =>
      [.setIcon "../../icons/slow128w.png" currentTab,
       .setBadgeText "" currentTab]
  | "GOOD" =>
      [.setIcon "../../icons/fast128w.png" currentTab]
  | _ =>
      [.setIcon "../../icons/default128w.png" currentTab,
       .setBadgeText "" currentTab]

/-- Source `badgeMetric(metric, value, tabid)`: the list of `chrome.action`
calls performed in its `chrome.tabs.query` callback.  A metric at or
below its threshold returns early and performs no call. -/
def badgeMetric (metric : String) (value : ℚ) (tabid activeTab : Nat) : List Action :=
  let currentTab := currentTabOf tabid activeTab
  let bgColor := "#000"
  if metric = "cls" ∧ value ≤ CLS_THRESHOLD then [] else
  if metric = "lcp" ∧ value ≤ LCP_THRESHOLD then [] else
  if metric = "fid" ∧ value ≤ FID_THRESHOLD then [] else
  match metric with
  | "lcp" =>
      [.setIcon "../../icons/slow128w-lcp.png" currentTab,
       .setBadgeBackgroundColor bgColor currentTab,
       .setBadgeText (toFixed2 (value / 1000)) currentTab]
  | "cls" =>
      [.setIcon "../../icons/slow128w-cls.png" currentTab,
       .setBadgeBackgroundColor bgColor currentTab,
       .setBadgeText (toFixed2 value) currentTab]
  | "fid" =>
      [.setIcon "../../icons/slow128w-fid.png" currentTab,
       .setBadgeBackgroundColor bgColor currentTab,
       .setBadgeText (toFixed2 value) currentTab]
  | _ =>
      [.setIcon "../../icons/default128w.png" currentTab,
       .setBadgeBackgroundColor "" currentTab,
       .setBadgeText "" currentTab]

/-- Source `doesTabExist` resolves `!chrome.runtime.lastError` in the
`chrome.tabs.get` callback: it always resolves to a boolean and reports
an absent tab (which sets `lastError`) as `false`, never as a rejection. -/
def doesTabExist (lastError : Option String) : Bool :=
  !lastError.isSome

/-- The visible badge of one tab: icon path, badge text, background. -/
structure BadgeState where
  icon : String
  text : String
  bgColor : String
deriving DecidableEq, Repr

/-- Apply one `chrome.action` call to a badge. -/
def applyAction (st : BadgeState) (a : Action) : BadgeState :=
  match a with
  | .setIcon p _ => { st with icon := p }
  | .setBadgeBackgroundColor c _ => { st with bgColor := c }
  | .setBadgeText t _ => { st with text := t }

/-- Apply a list of `chrome.action` calls in order. -/
def applyActions (st : BadgeState) (l : List Action) : BadgeState :=
  l.foldl applyAction st

/-- One entry of `request.metrics` — only the `value` field is consulted. -/
structure MetricReading where
  value : ℚ
deriving DecidableEq, Repr

/-- The `request.metrics` object: the three Core Web Vitals readings. -/
structure Metrics where
  lcp : MetricReading
  fid : MetricReading
  cls : MetricReading
deriving DecidableEq, Repr

/-- A completed-measurement message from the content script. -/
structure Request where
  passesAllThresholds : String
  metrics : Metrics
deriving DecidableEq, Repr

/-- Source `const delay = 2000` from `animateBadges`. -/
def delay : Nat := 2000

/-- The suspension points of `animateBadges`: the run resumes after its
first, second, third or fourth `await wait(delay)`. -/
inductive RunPC where
  | afterWait1
  | afterWait2
  | afterWait3
  | afterWait4
deriving DecidableEq, Repr

/-- A run of `animateBadges` suspended inside a `wait(delay)` timer. -/
structure RunTask where
  tabId : Nat
  animationId : Nat
  request : Request
  delayMs : Nat
  pc : RunPC
deriving DecidableEq, Repr

/-- A run of `animateBadges` suspended in `await doesTabExist(tabId)`
at the loop-back point, its generation check already passed. -/
structure TabGetTask where
  tabId : Nat
  animationId : Nat
  request : Request
deriving DecidableEq, Repr

/-- A pending asynchronous continuation in the event loop. -/
inductive PendingTask where
  | timer (t : RunTask)
  | tabGet (t : TabGetTask)
deriving DecidableEq, Repr

/-- One executed `chrome.action` call, tagged (as ghost instrumentation)
with the generation of the run that issued it and the tab id the run was
started for. -/
structure RenderEvent where
  animationId : Nat
  tabId : Nat
  action : Action
deriving DecidableEq, Repr

/-- The service worker's state: the module-level mutable variables
`globalAnimationId` and `animationsByTabId`, the pending event-loop
tasks, the id of the currently active tab (read by `chrome.tabs.query`),
and ghost logs of executed renders, of generation registrations and of
`badgeMetric` invocations. -/
structure SWState where
  globalAnimationId : Nat
  animationsByTabId : List (Nat × Nat)
  tasks : List PendingTask
  activeTab : Nat
  log : List RenderEvent
  startsLog : List (Nat × Nat)
  badgeMetricCalls : List (String × ℚ × Nat)
deriving DecidableEq, Repr

/-- Map lookup `animationsByTabId.get(tabId)`. -/
def tableGet (l : List (Nat × Nat)) (k : Nat) : Option Nat :=
  (l.find? (fun p => p.1 == k)).map (fun p => p.2)

/-- Map write `animationsByTabId.set(tabId, g)` — overwrite semantics. -/
def tableSet (l : List (Nat × Nat)) (k v : Nat) : List (Nat × Nat) :=
  (k, v) :: l.filter (fun p => p.1 != k)

/-- Tag a renderer's `chrome.action` calls with the issuing run. -/
def tagEvents (animationId tabId : Nat) (l : List Action) : List RenderEvent :=
  l.map (fun a => ⟨animationId, tabId, a⟩)

/-- The synchronous prefix of `animateBadges(request, tabId)` up to its
first `await`: read the counter, register the new generation in
`animationsByTabId`, increment the counter, render the overall badge,
and, when the verdict is `'POOR'`, schedule the first `wait(delay)`. -/
def animateBadges (request : Request) (tabId : Nat) (s : SWState) : SWState :=
  let animationId := s.globalAnimationId
  let s1 : SWState :=
    { s with
      animationsByTabId := tableSet s.animationsByTabId tabId animationId
      globalAnimationId := s.globalAnimationId + 1
      startsLog := s.startsLog ++ [(tabId, animationId)]
      log := s.log ++ tagEvents animationId tabId
        (badgeOverallPerf request.passesAllThresholds tabId s.activeTab) }
  if request.passesAllThresholds = "POOR" then
    { s1 with
      tasks := s1.tasks ++ [.timer ⟨tabId, animationId, request, delay, .afterWait1⟩] }
  else s1

/-- One metric step of the `'POOR'` cycle, after the generation check
has passed: invoke `badgeMetric` and suspend on the next `wait(delay)`. -/
def metricStep (t : RunTask) (metric : String) (value : ℚ) (nextPC : RunPC)
    (s : SWState) : SWState :=
  { s with
    badgeMetricCalls := s.badgeMetricCalls ++ [(metric, value, t.tabId)]
    log := s.log ++ tagEvents t.animationId t.tabId
      (badgeMetric metric value t.tabId s.activeTab)
    tasks := s.tasks ++ [.timer ⟨t.tabId, t.animationId, t.request, delay, nextPC⟩] }

/-- Resume `animateBadges` when one of its `wait(delay)` timers fires:
re-check `animationsByTabId.get(tabId) !== animationId` and return at a
mismatch; otherwise perform the step after that wait (a metric badge for
the first three waits, the `doesTabExist` call at the loop-back). -/
def animateBadgesResume (t : RunTask) (s : SWState) : SWState :=
  if tableGet s.animationsByTabId t.tabId = some t.animationId then
    match t.pc with
    | .afterWait1 => metricStep t "lcp" t.request.metrics.lcp.value .afterWait2 s
    | .afterWait2 => metricStep t "fid" t.request.metrics.fid.value .afterWait3 s
    | .afterWait3 => metricStep t "cls" t.request.metrics.cls.value .afterWait4 s
    | .afterWait4 =>
      { s with tasks := s.tasks ++ [.tabGet ⟨t.tabId, t.animationId, t.request⟩] }
  else s

/-- A scheduler action of the (single-threaded) event loop: delivery of
a content-script message, expiry of a pending timer, or resolution of a
pending `chrome.tabs.get` with the host's `lastError` outcome. -/
inductive SchedAction where
  | message (request : Request) (tabId : Nat)
  | fire (i : Nat)
  | resolveTab (i : Nat) (lastError : Option String)
deriving DecidableEq, Repr

/-- One atomic step of the event loop.  Resolving `doesTabExist` with an
existing tab re-enters `animateBadges(request, tabId)` — the recursive
loop-back of the source — without a further generation check. -/
def step (s : SWState) (a : SchedAction) : SWState :=
  match a with
  | .message request tabId => animateBadges request tabId s
  | .fire i =>
    match s.tasks[i]? with
    | some (.timer t) => animateBadgesResume t { s with tasks := s.tasks.eraseIdx i }
    | _ => s
  | .resolveTab i lastError =>
    match s.tasks[i]? with
    | some (.tabGet t) =>
      let s1 : SWState := { s with tasks := s.tasks.eraseIdx i }
      if doesTabExist lastError then animateBadges t.request t.tabId s1 else s1
    | _ => s

/-- Run the event loop over a schedule. -/
def exec (s : SWState) (acts : List SchedAction) : SWState :=
  acts.foldl step s

/-- The service worker's initial state. -/
def initState (activeTab : Nat) : SWState :=
  ⟨0, [], [], activeTab, [], [], []⟩

/-- The render events issued by the run of generation `g` for tab `T`. -/
def eventsOf (g T : Nat) (l : List RenderEvent) : List RenderEvent :=
  l.filter (fun e => e.animationId == g && e.tabId == T)

/-- A state the service worker can actually be in: produced by some
schedule from the initial state. -/
def Reachable (s : SWState) : Prop :=
  ∃ activeTab acts, exec (initState activeTab) acts = s

/-- Every generation recorded in the per-tab table was allocated before
the current value of the global counter. -/
def TableBound (s : SWState) : Prop :=
  ∀ p ∈ s.animationsByTabId, p.2 < s.globalAnimationId

/-- Every generation ever registered by a start was allocated before the
current value of the global counter. -/
def StartsBound (s : SWState) : Prop :=
  ∀ p ∈ s.startsLog, p.2 < s.globalAnimationId

/-- The table entry of each tab is the generation of the last start
performed for that tab. -/
def TableLast (s : SWState) : Prop :=
  ∀ T, tableGet s.animationsByTabId T =
    (List.getLast? (s.startsLog.filter (fun p => p.1 == T))).map (fun p => p.2)

theorem tableGet_set_self (l : List (Nat × Nat)) (k v : Nat) :
    tableGet (tableSet l k v) k = some v := by
  simp [tableGet, tableSet]

theorem find_key_filter (l : List (Nat × Nat)) (k k' : Nat) (h : k' ≠ k) :
    List.find? (fun p => p.1 == k') (l.filter (fun p => p.1 != k)) =
      List.find? (fun p => p.1 == k') l := by
  induction l with
  | nil => rfl
  | cons a l ih =>
    by_cases ha : a.1 = k
    · have hb : (a.1 == k') = false := by simp; omega
      have hb2 : (a.1 != k) = false := by simp [ha]
      simp [List.filter_cons, hb2, List.find?_cons, hb, ih]
    · have hb2 : (a.1 != k) = true := by simp [ha]
      by_cases ha' : a.1 = k'
      · have hb : (a.1 == k') = true := by simp [ha']
        simp [List.filter_cons, hb2, List.find?_cons, hb]
      · have hb : (a.1 == k') = false := by simp [ha']
        simp [List.filter_cons, hb2, List.find?_cons, hb, ih]

theorem tableGet_set_other (l : List (Nat × Nat)) (k v k' : Nat) (h : k' ≠ k) :
    tableGet (tableSet l k v) k' = tableGet l k' := by
  have hkk : (k == k') = false := by simp; omega
  simp [tableGet, tableSet, List.find?_cons, hkk, find_key_filter l k k' h]

theorem tableSet_mem (l : List (Nat × Nat)) (k v : Nat) (p : Nat × Nat)
    (h : p ∈ tableSet l k v) : p = (k, v) ∨ p ∈ l := by
  simp only [tableSet, List.mem_cons, List.mem_filter] at h
  rcases h with h | h
  · exact Or.inl h
  · exact Or.inr h.1

theorem tableGet_mem (l : List (Nat × Nat)) (k g : Nat)
    (h : tableGet l k = some g) : (k, g) ∈ l := by
  unfold tableGet at h
  obtain ⟨p, hp, hg⟩ := Option.map_eq_some'.mp h
  have h1 := List.mem_of_find?_eq_some hp
  have h2 := List.find?_some hp
  have h3 : p.1 = k := by simpa using h2
  have h4 : p = (k, g) := by
    obtain ⟨p1, p2⟩ := p
    simp only at h3 hg
    simp [h3, hg]
  exact h4 ▸ h1

theorem eventsOf_append (g T : Nat) (l1 l2 : List RenderEvent) :
    eventsOf g T (l1 ++ l2) = eventsOf g T l1 ++ eventsOf g T l2 := by
  simp [eventsOf, List.filter_append]

theorem eventsOf_tagEvents_ne (g T aid tb : Nat) (h : aid ≠ g ∨ tb ≠ T)
    (acts : List Action) : eventsOf g T (tagEvents aid tb acts) = [] := by
  induction acts with
  | nil => rfl
  | cons a acts ih =>
    have hp : ((aid == g) && (tb == T)) = false := by
      rcases h with h | h <;> simp [h]
    simpa [tagEvents, eventsOf, List.filter_cons, hp] using ih

-- field equations for the synchronous start prefix
theorem animateBadges_log (request : Request) (tabId : Nat) (s : SWState) :
    (animateBadges request tabId s).log = s.log ++
      tagEvents s.globalAnimationId tabId
        (badgeOverallPerf request.passesAllThresholds tabId s.activeTab) := by
  unfold animateBadges; dsimp only; split <;> rfl

theorem animateBadges_table (request : Request) (tabId : Nat) (s : SWState) :
    (animateBadges request tabId s).animationsByTabId =
      tableSet s.animationsByTabId tabId s.globalAnimationId := by
  unfold animateBadges; dsimp only; split <;> rfl

theorem animateBadges_counter (request : Request) (tabId : Nat) (s : SWState) :
    (animateBadges request tabId s).globalAnimationId = s.globalAnimationId + 1 := by
  unfold animateBadges; dsimp only; split <;> rfl

theorem animateBadges_startsLog (request : Request) (tabId : Nat) (s : SWState) :
    (animateBadges request tabId s).startsLog =
      s.startsLog ++ [(tabId, s.globalAnimationId)] := by
  unfold animateBadges; dsimp only; split <;> rfl

theorem animateBadges_activeTab (request : Request) (tabId : Nat) (s : SWState) :
    (animateBadges request tabId s).activeTab = s.activeTab := by
  unfold animateBadges; dsimp only; split <;> rfl

-- field equations for the resume continuation
theorem animateBadgesResume_table (t : RunTask) (s : SWState) :
    (animateBadgesResume t s).animationsByTabId = s.animationsByTabId := by
  unfold animateBadgesResume; split
  · split <;> rfl
  · rfl

theorem animateBadgesResume_counter (t : RunTask) (s : SWState) :
    (animateBadgesResume t s).globalAnimationId = s.globalAnimationId := by
  unfold animateBadgesResume; split
  · split <;> rfl
  · rfl

theorem animateBadgesResume_startsLog (t : RunTask) (s : SWState) :
    (animateBadgesResume t s).startsLog = s.startsLog := by
  unfold animateBadgesResume; split
  · split <;> rfl
  · rfl

theorem animateBadgesResume_activeTab (t : RunTask) (s : SWState) :
    (animateBadgesResume t s).activeTab = s.activeTab := by
  unfold animateBadgesResume; split
  · split <;> rfl
  · rfl

-- decompositions of an event-loop step
theorem step_fire_eq (s : SWState) (i : Nat) :
    step s (.fire i) = s ∨
    ∃ t, s.tasks[i]? = some (.timer t) ∧
      step s (.fire i) = animateBadgesResume t { s with tasks := s.tasks.eraseIdx i } := by
  unfold step
  cases h : s.tasks[i]? with
  | none => left; simp [h]
  | some pt =>
    cases pt with
    | timer t => right; exact ⟨t, rfl, by simp [h]⟩
    | tabGet t => left; simp [h]

theorem step_resolveTab_eq (s : SWState) (i : Nat) (err : Option String) :
    step s (.resolveTab i err) = s ∨
    ∃ t, s.tasks[i]? = some (.tabGet t) ∧
      ((doesTabExist err = true ∧
        step s (.resolveTab i err) =
          animateBadges t.request t.tabId { s with tasks := s.tasks.eraseIdx i }) ∨
       (doesTabExist err = false ∧
        step s (.resolveTab i err) = { s with tasks := s.tasks.eraseIdx i })) := by
  unfold step
  cases h : s.tasks[i]? with
  | none => left; simp [h]
  | some pt =>
    cases pt with
    | timer t => left; simp [h]
    | tabGet t =>
      right
      refine ⟨t, rfl, ?_⟩
      cases he : doesTabExist err with
      | true => left; exact ⟨rfl, by simp [h, he]⟩
      | false => right; exact ⟨rfl, by simp [h, he]⟩

-- invariant preservation
theorem tableBound_animateBadges (request : Request) (T : Nat) (s : SWState)
    (hb : TableBound s) : TableBound (animateBadges request T s) := by
  intro p hp
  rw [animateBadges_table] at hp
  rw [animateBadges_counter]
  rcases tableSet_mem _ _ _ _ hp with h | h
  · subst h; omega
  · exact Nat.lt_succ_of_lt (hb p h)

theorem tableBound_step (s : SWState) (a : SchedAction) (hb : TableBound s) :
    TableBound (step s a) := by
  cases a with
  | message request tabId => exact tableBound_animateBadges request tabId s hb
  | fire i =>
    rcases step_fire_eq s i with h | ⟨t, _, h⟩
    · rw [h]; exact hb
    · rw [h]
      intro p hp
      rw [animateBadgesResume_table] at hp
      rw [animateBadgesResume_counter]
      exact hb p hp
  | resolveTab i err =>
    rcases step_resolveTab_eq s i err with h | ⟨t, _, ⟨_, h⟩ | ⟨_, h⟩⟩
    · rw [h]; exact hb
    · rw [h]
      exact tableBound_animateBadges _ _ _ (fun p hp => hb p hp)
    · rw [h]; exact hb

theorem startsBound_animateBadges (request : Request) (T : Nat) (s : SWState)
    (hb : StartsBound s) : StartsBound (animateBadges request T s) := by
  intro p hp
  rw [animateBadges_startsLog] at hp
  rw [animateBadges_counter]
  rcases List.mem_append.mp hp with h | h
  · exact Nat.lt_succ_of_lt (hb p h)
  · simp only [List.mem_singleton] at h; subst h; omega

theorem startsBound_step (s : SWState) (a : SchedAction) (hb : StartsBound s) :
    StartsBound (step s a) := by
  cases a with
  | message request tabId => exact startsBound_animateBadges request tabId s hb
  | fire i =>
    rcases step_fire_eq s i with h | ⟨t, _, h⟩
    · rw [h]; exact hb
    · rw [h]
      intro p hp
      rw [animateBadgesResume_startsLog] at hp
      rw [animateBadgesResume_counter]
      exact hb p hp
  | resolveTab i err =>
    rcases step_resolveTab_eq s i err with h | ⟨t, _, ⟨_, h⟩ | ⟨_, h⟩⟩
    · rw [h]; exact hb
    · rw [h]
      exact startsBound_animateBadges _ _ _ (fun p hp => hb p hp)
    · rw [h]; exact hb

theorem tableLast_animateBadges (request : Request) (T : Nat) (s : SWState)
    (h : TableLast s) : TableLast (animateBadges request T s) := by
  intro T'
  rw [animateBadges_table, animateBadges_startsLog]
  by_cases hT : T' = T
  · subst hT
    rw [tableGet_set_self, List.filter_append]
    simp
  · rw [tableGet_set_other _ _ _ _ hT, List.filter_append]
    have hf : List.filter (fun p => p.1 == T') [(T, s.globalAnimationId)] = [] := by
      have : (T == T') = false := by simp; omega
      simp [List.filter_cons, this]
    rw [hf, List.append_nil]
    exact h T'

theorem tableLast_step (s : SWState) (a : SchedAction) (h : TableLast s) :
    TableLast (step s a) := by
  cases a with
  | message request tabId => exact tableLast_animateBadges request tabId s h
  | fire i =>
    rcases step_fire_eq s i with he | ⟨t, _, he⟩
    · rw [he]; exact h
    · rw [he]
      intro T
      rw [animateBadgesResume_table, animateBadgesResume_startsLog]
      exact h T
  | resolveTab i err =>
    rcases step_resolveTab_eq s i err with he | ⟨t, _, ⟨_, he⟩ | ⟨_, he⟩⟩
    · rw [he]; exact h
    · rw [he]
      exact tableLast_animateBadges _ _ _ (fun T => h T)
    · rw [he]; exact h

theorem inv_exec (s : SWState) (acts : List SchedAction)
    (h : TableBound s ∧ StartsBound s ∧ TableLast s) :
    TableBound (exec s acts) ∧ StartsBound (exec s acts) ∧ TableLast (exec s acts) := by
  induction acts generalizing s with
  | nil => exact h
  | cons a acts ih =>
    exact ih (step s a)
      ⟨tableBound_step s a h.1, startsBound_step s a h.2.1, tableLast_step s a h.2.2⟩

theorem reachable_inv (s : SWState) (hs : Reachable s) :
    TableBound s ∧ StartsBound s ∧ TableLast s := by
  obtain ⟨activeTab, acts, rfl⟩ := hs
  refine inv_exec _ acts ⟨?_, ?_, ?_⟩
  · intro p hp; simp [initState] at hp
  · intro p hp; simp [initState] at hp
  · intro T; rfl

-- a superseded generation renders no further event
theorem stale_animateBadges (request : Request) (tab0 : Nat) (s : SWState)
    (g g' T : Nat) (hb : TableBound s)
    (ht : tableGet s.animationsByTabId T = some g') (hg : g < g') :
    eventsOf g T (animateBadges request tab0 s).log = eventsOf g T s.log ∧
    ∃ g'', tableGet (animateBadges request tab0 s).animationsByTabId T = some g'' ∧
      g < g'' := by
  have hgc : g' < s.globalAnimationId := hb _ (tableGet_mem _ _ _ ht)
  constructor
  · rw [animateBadges_log, eventsOf_append]
    rw [eventsOf_tagEvents_ne g T s.globalAnimationId tab0 (Or.inl (by omega))]
    rw [List.append_nil]
  · rw [animateBadges_table]
    by_cases hT : tab0 = T
    · subst hT
      exact ⟨s.globalAnimationId, tableGet_set_self _ _ _, by omega⟩
    · refine ⟨g', ?_, hg⟩
      rw [tableGet_set_other _ _ _ _ (fun he => hT he.symm)]
      exact ht

theorem stale_resume (t : RunTask) (s : SWState) (g g' T : Nat)
    (ht : tableGet s.animationsByTabId T = some g') (hg : g < g') :
    eventsOf g T (animateBadgesResume t s).log = eventsOf g T s.log := by
  unfold animateBadgesResume
  split
  case isTrue hgate =>
    have hne : t.animationId ≠ g ∨ t.tabId ≠ T := by
      by_cases hT : t.tabId = T
      · left
        rw [hT, ht] at hgate
        have : g' = t.animationId := by exact Option.some.inj hgate
        omega
      · exact Or.inr hT
    cases t.pc <;>
      first
      | (show eventsOf g T (metricStep _ _ _ _ _).log = _
         simp only [metricStep]
         rw [eventsOf_append, eventsOf_tagEvents_ne g T _ _ hne, List.append_nil])
      | rfl
  case isFalse => rfl

theorem stale_step (s : SWState) (a : SchedAction) (g g' T : Nat)
    (hb : TableBound s)
    (ht : tableGet s.animationsByTabId T = some g') (hg : g < g') :
    eventsOf g T (step s a).log = eventsOf g T s.log ∧
    ∃ g'', tableGet (step s a).animationsByTabId T = some g'' ∧ g < g'' := by
  cases a with
  | message request tabId => exact stale_animateBadges request tabId s g g' T hb ht hg
  | fire i =>
    rcases step_fire_eq s i with h | ⟨t, _, h⟩
    · rw [h]; exact ⟨rfl, g', ht, hg⟩
    · rw [h]
      constructor
      · exact stale_resume t _ g g' T ht hg
      · rw [animateBadgesResume_table]
        exact ⟨g', ht, hg⟩
  | resolveTab i err =>
    rcases step_resolveTab_eq s i err with h | ⟨t, _, ⟨_, h⟩ | ⟨_, h⟩⟩
    · rw [h]; exact ⟨rfl, g', ht, hg⟩
    · rw [h]
      exact stale_animateBadges _ _ _ g g' T (fun p hp => hb p hp) ht hg
    · rw [h]; exact ⟨rfl, g', ht, hg⟩

theorem stale_exec (s : SWState) (acts : List SchedAction) (g g' T : Nat)
    (hb : TableBound s)
    (ht : tableGet s.animationsByTabId T = some g') (hg : g < g') :
    eventsOf g T (exec s acts).log = eventsOf g T s.log := by
  induction acts generalizing s g' with
  | nil => rfl
  | cons a acts ih =>
    obtain ⟨hlog, g'', ht'', hg''⟩ := stale_step s a g g' T hb ht hg
    have hb' := tableBound_step s a hb
    calc eventsOf g T (exec (step s a) acts).log
        = eventsOf g T (step s a).log := ih (step s a) g'' hb' ht'' hg''
      _ = eventsOf g T s.log := hlog

theorem step_counter_mono (s : SWState) (a : SchedAction) :
    s.globalAnimationId ≤ (step s a).globalAnimationId := by
  cases a with
  | message request tabId =>
    rw [show step s (.message request tabId) = animateBadges request tabId s from rfl,
        animateBadges_counter]
    exact Nat.le_succ _
  | fire i =>
    rcases step_fire_eq s i with h | ⟨t, _, h⟩
    · rw [h]
    · rw [h, animateBadgesResume_counter]
  | resolveTab i err =>
    rcases step_resolveTab_eq s i err with h | ⟨t, _, ⟨_, h⟩ | ⟨_, h⟩⟩
    · rw [h]
    · rw [h, animateBadges_counter]
      exact Nat.le_succ _
    · rw [h]

-- evaluation of badgeMetric on the two sides of each threshold
theorem badgeMetric_lcp_le (value : ℚ) (tabid activeTab : Nat)
    (h : value ≤ LCP_THRESHOLD) :
    badgeMetric "lcp" value tabid activeTab = [] := by
  unfold badgeMetric
  dsimp only
  rw [if_neg (fun hc => absurd hc.1 (by decide)), if_pos ⟨rfl, h⟩]

theorem badgeMetric_lcp_gt (value : ℚ) (tabid activeTab : Nat)
    (h : ¬ value ≤ LCP_THRESHOLD) :
    badgeMetric "lcp" value tabid activeTab =
      [.setIcon "../../icons/slow128w-lcp.png" (currentTabOf tabid activeTab),
       .setBadgeBackgroundColor "#000" (currentTabOf tabid activeTab),
       .setBadgeText (toFixed2 (value / 1000)) (currentTabOf tabid activeTab)] := by
  unfold badgeMetric
  dsimp only
  rw [if_neg (fun hc => absurd hc.1 (by decide)),
      if_neg (fun hc => absurd hc.2 h),
      if_neg (fun hc => absurd hc.1 (by decide))]
  rfl

theorem badgeMetric_fid_le (value : ℚ) (tabid activeTab : Nat)
    (h : value ≤ FID_THRESHOLD) :
    badgeMetric "fid" value tabid activeTab = [] := by
  unfold badgeMetric
  dsimp only
  rw [if_neg (fun hc => absurd hc.1 (by decide)),
      if_neg (fun hc => absurd hc.1 (by decide)), if_pos ⟨rfl, h⟩]

theorem badgeMetric_fid_gt (value : ℚ) (tabid activeTab : Nat)
    (h : ¬ value ≤ FID_THRESHOLD) :
    badgeMetric "fid" value tabid activeTab =
      [.setIcon "../../icons/slow128w-fid.png" (currentTabOf tabid activeTab),
       .setBadgeBackgroundColor "#000" (currentTabOf tabid activeTab),
       .setBadgeText (toFixed2 value) (currentTabOf tabid activeTab)] := by
  unfold badgeMetric
  dsimp only
  rw [if_neg (fun hc => absurd hc.1 (by decide)),
      if_neg (fun hc => absurd hc.1 (by decide)),
      if_neg (fun hc => absurd hc.2 h)]
  rfl

theorem badgeMetric_cls_le (value : ℚ) (tabid activeTab : Nat)
    (h : value ≤ CLS_THRESHOLD) :
    badgeMetric "cls" value tabid activeTab = [] := by
  unfold badgeMetric
  dsimp only
  rw [if_pos ⟨rfl, h⟩]

theorem badgeMetric_cls_gt (value : ℚ) (tabid activeTab : Nat)
    (h : ¬ value ≤ CLS_THRESHOLD) :
    badgeMetric "cls" value tabid activeTab =
      [.setIcon "../../icons/slow128w-cls.png" (currentTabOf tabid activeTab),
       .setBadgeBackgroundColor "#000" (currentTabOf tabid activeTab),
       .setBadgeText (toFixed2 value) (currentTabOf tabid activeTab)] := by
  unfold badgeMetric
  dsimp only
  rw [if_neg (fun hc => absurd hc.2 h),
      if_neg (fun hc => absurd hc.1 (by decide)),
      if_neg (fun hc => absurd hc.1 (by decide))]
  rfl

-- concrete requests used to witness the sequencer theorems
/-- A failing-verdict request whose three metric readings all exceed
their thresholds. -/
def reqPoorAll : Request := ⟨"POOR", ⟨⟨3000⟩, ⟨200⟩, ⟨2⟩⟩⟩

/-- A failing-verdict request whose three metric readings are all at or
below their thresholds. -/
def reqPoorPassing : Request := ⟨"POOR", ⟨⟨2000⟩, ⟨50⟩, ⟨0⟩⟩⟩

/-- A passing-verdict request. -/
def reqGood : Request := ⟨"GOOD", ⟨⟨1000⟩, ⟨10⟩, ⟨0⟩⟩⟩

/-- C1: in every reachable state in which a newer generation `g'` is
registered for tab `T`, a run of an older generation `g` renders nothing
more under any further schedule (so in particular at most one more
render), and a run that wakes to find its generation no longer current
terminates at once: its timer is consumed, nothing is rendered, no task
is scheduled, and the table, counter and metric-call log are untouched. -/
theorem animateBadges_superseded_halts (s : SWState) (hs : Reachable s)
    (g g' T : Nat)
    (ht : tableGet s.animationsByTabId T = some g') (hg : g < g') :
    (∀ acts, eventsOf g T (exec s acts).log = eventsOf g T s.log) ∧
    (∀ i t, s.tasks[i]? = some (.timer t) →
      tableGet s.animationsByTabId t.tabId ≠ some t.animationId →
      (step s (.fire i)).log = s.log ∧
      (step s (.fire i)).tasks = s.tasks.eraseIdx i ∧
      (step s (.fire i)).animationsByTabId = s.animationsByTabId ∧
      (step s (.fire i)).globalAnimationId = s.globalAnimationId ∧
      (step s (.fire i)).badgeMetricCalls = s.badgeMetricCalls) := by
  obtain ⟨hb, hsb, hlast⟩ := reachable_inv s hs
  constructor
  · intro acts
    exact stale_exec s acts g g' T hb ht hg
  · intro i t hti hmis
    have hstep : step s (.fire i) =
        animateBadgesResume t { s with tasks := s.tasks.eraseIdx i } := by
      unfold step; simp [hti]
    have hres : animateBadgesResume t { s with tasks := s.tasks.eraseIdx i } =
        { s with tasks := s.tasks.eraseIdx i } := by
      unfold animateBadgesResume
      rw [if_neg hmis]
    rw [hstep, hres]
    exact ⟨rfl, rfl, rfl, rfl, rfl⟩

theorem animateBadges_superseded_halts_witness :
    eventsOf 0 5 (exec (exec (initState 1)
        [.message reqPoorAll 5, .message reqGood 5]) [.fire 0]).log =
      eventsOf 0 5 (exec (initState 1)
        [.message reqPoorAll 5, .message reqGood 5]).log ∧
    (step (exec (initState 1) [.message reqPoorAll 5, .message reqGood 5])
        (.fire 0)).log =
      (exec (initState 1) [.message reqPoorAll 5, .message reqGood 5]).log := by
  have h := animateBadges_superseded_halts
    (exec (initState 1) [.message reqPoorAll 5, .message reqGood 5])
    ⟨1, [.message reqPoorAll 5, .message reqGood 5], rfl⟩ 0 1 5
    (by decide) (by decide)
  exact ⟨h.1 [.fire 0],
    (h.2 0 ⟨5, 0, reqPoorAll, 2000, .afterWait1⟩ (by decide) (by decide)).1⟩

/-- C2: every start (a `.message` step) allocates the current value of
the global counter, which then increments; the generation it registers
for the tab is strictly larger than every generation ever registered
before (in any reachable state all registered generations are below the
counter); the counter never decreases at any step; and in every
reachable state the table entry of each tab is exactly the last
generation registered for that tab. -/
theorem animateBadges_generation_monotone (s : SWState) (hs : Reachable s)
    (request : Request) (T : Nat) :
    (∀ s' a, s'.globalAnimationId ≤ (step s' a).globalAnimationId) ∧
    (step s (.message request T)).globalAnimationId = s.globalAnimationId + 1 ∧
    tableGet (step s (.message request T)).animationsByTabId T =
      some s.globalAnimationId ∧
    (∀ p ∈ s.startsLog, p.2 < s.globalAnimationId) ∧
    (∀ T', tableGet s.animationsByTabId T' =
      (List.getLast? (s.startsLog.filter (fun p => p.1 == T'))).map
        (fun p => p.2)) := by
  obtain ⟨hb, hsb, hlast⟩ := reachable_inv s hs
  refine ⟨step_counter_mono, animateBadges_counter request T s, ?_, hsb, hlast⟩
  rw [show step s (.message request T) = animateBadges request T s from rfl,
      animateBadges_table]
  exact tableGet_set_self _ _ _

theorem animateBadges_generation_monotone_witness :
    (step (exec (initState 1) [.message reqGood 5])
        (.message reqPoorAll 5)).globalAnimationId = 2 ∧
    tableGet (step (exec (initState 1) [.message reqGood 5])
        (.message reqPoorAll 5)).animationsByTabId 5 = some 1 := by
  have h := animateBadges_generation_monotone
    (exec (initState 1) [.message reqGood 5])
    ⟨1, [.message reqGood 5], rfl⟩ reqPoorAll 5
  exact ⟨h.2.1, h.2.2.1⟩

/-- C3: when the verdict is not `'POOR'`, a start renders exactly the
one overall-verdict badge (the log grows by precisely that render's
actions), invokes `badgeMetric` for no metric, and schedules nothing:
the task queue is unchanged, for any metrics payload. -/
theorem animateBadges_non_poor_single_render (s : SWState) (request : Request)
    (T : Nat) (h : request.passesAllThresholds ≠ "POOR") :
    (step s (.message request T)).tasks = s.tasks ∧
    (step s (.message request T)).log = s.log ++
      tagEvents s.globalAnimationId T
        (badgeOverallPerf request.passesAllThresholds T s.activeTab) ∧
    (step s (.message request T)).badgeMetricCalls = s.badgeMetricCalls := by
  refine ⟨?_, animateBadges_log request T s, ?_⟩
  · show (animateBadges request T s).tasks = s.tasks
    unfold animateBadges
    dsimp only
    rw [if_neg h]
  · show (animateBadges request T s).badgeMetricCalls = s.badgeMetricCalls
    unfold animateBadges
    dsimp only
    split <;> rfl

/-- C5: at a metric step, a metric badge — metric icon, black
background, per-metric formatted text — is rendered iff the value
strictly exceeds the metric's threshold (lcp 2500, fid 100, cls 0.1);
at or below the threshold nothing is rendered and applying the (empty)
render to any badge leaves it in its prior visual state. -/
theorem badgeMetric_renders_iff_failing (value : ℚ) (tabid activeTab : Nat) :
    (LCP_THRESHOLD < value ↔
      badgeMetric "lcp" value tabid activeTab =
        [.setIcon "../../icons/slow128w-lcp.png" (currentTabOf tabid activeTab),
         .setBadgeBackgroundColor "#000" (currentTabOf tabid activeTab),
         .setBadgeText (toFixed2 (value / 1000)) (currentTabOf tabid activeTab)]) ∧
    (value ≤ LCP_THRESHOLD → badgeMetric "lcp" value tabid activeTab = [] ∧
      ∀ st, applyActions st (badgeMetric "lcp" value tabid activeTab) = st) ∧
    (FID_THRESHOLD < value ↔
      badgeMetric "fid" value tabid activeTab =
        [.setIcon "../../icons/slow128w-fid.png" (currentTabOf tabid activeTab),
         .setBadgeBackgroundColor "#000" (currentTabOf tabid activeTab),
         .setBadgeText (toFixed2 value) (currentTabOf tabid activeTab)]) ∧
    (value ≤ FID_THRESHOLD → badgeMetric "fid" value tabid activeTab = [] ∧
      ∀ st, applyActions st (badgeMetric "fid" value tabid activeTab) = st) ∧
    (CLS_THRESHOLD < value ↔
      badgeMetric "cls" value tabid activeTab =
        [.setIcon "../../icons/slow128w-cls.png" (currentTabOf tabid activeTab),
         .setBadgeBackgroundColor "#000" (currentTabOf tabid activeTab),
         .setBadgeText (toFixed2 value) (currentTabOf tabid activeTab)]) ∧
    (value ≤ CLS_THRESHOLD → badgeMetric "cls" value tabid activeTab = [] ∧
      ∀ st, applyActions st (badgeMetric "cls" value tabid activeTab) = st) := by
  refine ⟨⟨fun hlt => ?_, fun heq => ?_⟩, fun hle => ?_,
          ⟨fun hlt => ?_, fun heq => ?_⟩, fun hle => ?_,
          ⟨fun hlt => ?_, fun heq => ?_⟩, fun hle => ?_⟩
  · exact badgeMetric_lcp_gt value tabid activeTab (not_le.mpr hlt)
  · by_contra hnp
    rw [badgeMetric_lcp_le value tabid activeTab (not_lt.mp hnp)] at heq
    exact List.noConfusion heq
  · rw [badgeMetric_lcp_le value tabid activeTab hle]
    exact ⟨rfl, fun st => rfl⟩
  · exact badgeMetric_fid_gt value tabid activeTab (not_le.mpr hlt)
  · by_contra hnp
    rw [badgeMetric_fid_le value tabid activeTab (not_lt.mp hnp)] at heq
    exact List.noConfusion heq
  · rw [badgeMetric_fid_le value tabid activeTab hle]
    exact ⟨rfl, fun st => rfl⟩
  · exact badgeMetric_cls_gt value tabid activeTab (not_le.mpr hlt)
  · by_contra hnp
    rw [badgeMetric_cls_le value tabid activeTab (not_lt.mp hnp)] at heq
    exact List.noConfusion heq
  · rw [badgeMetric_cls_le value tabid activeTab hle]
    exact ⟨rfl, fun st => rfl⟩

theorem badgeMetric_renders_iff_failing_witness :
    badgeMetric "lcp" 3000 7 1 =
      [.setIcon "../../icons/slow128w-lcp.png" 7,
       .setBadgeBackgroundColor "#000" 7,
       .setBadgeText (toFixed2 (3000 / 1000)) 7] ∧
    badgeMetric "fid" 50 7 1 = [] ∧
    applyActions ⟨"i", "t", "b"⟩ (badgeMetric "fid" 50 7 1) = ⟨"i", "t", "b"⟩ := by
  have h3000 := badgeMetric_renders_iff_failing 3000 7 1
  have h50 := badgeMetric_renders_iff_failing 50 7 1
  exact ⟨h3000.1.mp (by decide), (h50.2.2.2.1 (by decide)).1,
    (h50.2.2.2.1 (by decide)).2 ⟨"i", "t", "b"⟩⟩

/-- C6 counterexample: the sequencer does not pre-filter.  Concretely,
for a `'POOR'` request with lcp 2000 (at or below the 2500 threshold),
the first cycle step invokes `badgeMetric` with that passing value —
refuting the claim that `badgeMetric` is never invoked by the sequencer
for a metric whose value does not exceed its threshold. -/
theorem animateBadges_calls_badgeMetric_on_passing_value :
    (exec (initState 1)
        [.message reqPoorPassing 5, .fire 0]).badgeMetricCalls =
      [("lcp", 2000, 5)] ∧
    reqPoorPassing.metrics.lcp.value ≤ LCP_THRESHOLD := by
  decide

/-- C6 amended: the sequencer invokes `badgeMetric` for each metric of a
current `'POOR'` cycle unconditionally, whatever the metric's value; the
filtering lives inside `badgeMetric` itself, which renders nothing when
the value does not exceed the threshold, so a passing value never makes
it to the screen. -/
theorem animateBadges_no_prefilter (s : SWState) (i : Nat) (t : RunTask)
    (h1 : s.tasks[i]? = some (.timer t))
    (h2 : tableGet s.animationsByTabId t.tabId = some t.animationId) :
    (t.pc = .afterWait1 →
      (step s (.fire i)).badgeMetricCalls =
        s.badgeMetricCalls ++ [("lcp", t.request.metrics.lcp.value, t.tabId)] ∧
      (t.request.metrics.lcp.value ≤ LCP_THRESHOLD →
        (step s (.fire i)).log = s.log)) ∧
    (t.pc = .afterWait2 →
      (step s (.fire i)).badgeMetricCalls =
        s.badgeMetricCalls ++ [("fid", t.request.metrics.fid.value, t.tabId)] ∧
      (t.request.metrics.fid.value ≤ FID_THRESHOLD →
        (step s (.fire i)).log = s.log)) ∧
    (t.pc = .afterWait3 →
      (step s (.fire i)).badgeMetricCalls =
        s.badgeMetricCalls ++ [("cls", t.request.metrics.cls.value, t.tabId)] ∧
      (t.request.metrics.cls.value ≤ CLS_THRESHOLD →
        (step s (.fire i)).log = s.log)) := by
  have hstep : step s (.fire i) =
      animateBadgesResume t { s with tasks := s.tasks.eraseIdx i } := by
    unfold step; simp [h1]
  refine ⟨fun hpc => ?_, fun hpc => ?_, fun hpc => ?_⟩ <;>
    rw [hstep] <;>
    unfold animateBadgesResume <;>
    rw [if_pos h2, hpc] <;>
    refine ⟨rfl, fun hle => ?_⟩
  · simp only [metricStep,
      badgeMetric_lcp_le t.request.metrics.lcp.value t.tabId s.activeTab hle,
      tagEvents, List.map_nil, List.append_nil]
  · simp only [metricStep,
      badgeMetric_fid_le t.request.metrics.fid.value t.tabId s.activeTab hle,
      tagEvents, List.map_nil, List.append_nil]
  · simp only [metricStep,
      badgeMetric_cls_le t.request.metrics.cls.value t.tabId s.activeTab hle,
      tagEvents, List.map_nil, List.append_nil]

theorem animateBadges_no_prefilter_witness :
    (step (exec (initState 1) [.message reqPoorPassing 5])
        (.fire 0)).badgeMetricCalls =
      (exec (initState 1) [.message reqPoorPassing 5]).badgeMetricCalls ++
        [("lcp", reqPoorPassing.metrics.lcp.value, 5)] ∧
    (step (exec (initState 1) [.message reqPoorPassing 5]) (.fire 0)).log =
      (exec (initState 1) [.message reqPoorPassing 5]).log := by
  have h := animateBadges_no_prefilter
    (exec (initState 1) [.message reqPoorPassing 5]) 0
    ⟨5, 0, reqPoorPassing, 2000, .afterWait1⟩ (by decide) (by decide)
  have h1 := h.1 rfl
  exact ⟨h1.1, h1.2 (by decide)⟩

/-- C7: when the loop-back `doesTabExist` resolves with the host's
`lastError` set (the tab is gone), the run ends: its pending task is
consumed and no iteration begins — nothing is rendered, nothing is
scheduled, no generation is registered — even if the verdict in the
request is still `'POOR'`; and the liveness check reports absence as
`false` rather than throwing. -/
theorem animateBadges_tab_gone_halts (s : SWState) (i : Nat) (t : TabGetTask)
    (msg : String) (h1 : s.tasks[i]? = some (.tabGet t)) :
    doesTabExist (some msg) = false ∧
    (step s (.resolveTab i (some msg))).log = s.log ∧
    (step s (.resolveTab i (some msg))).tasks = s.tasks.eraseIdx i ∧
    (step s (.resolveTab i (some msg))).animationsByTabId = s.animationsByTabId ∧
    (step s (.resolveTab i (some msg))).globalAnimationId = s.globalAnimationId ∧
    (step s (.resolveTab i (some msg))).startsLog = s.startsLog ∧
    (step s (.resolveTab i (some msg))).badgeMetricCalls = s.badgeMetricCalls := by
  have hstep : step s (.resolveTab i (some msg)) =
      { s with tasks := s.tasks.eraseIdx i } := by
    unfold step
    simp [h1, doesTabExist]
  rw [hstep]
  exact ⟨rfl, rfl, rfl, rfl, rfl, rfl, rfl⟩

theorem animateBadges_tab_gone_halts_witness :
    doesTabExist (some "No tab with id") = false ∧
    (step (exec (initState 1)
        [.message reqPoorAll 5, .fire 0, .fire 0, .fire 0, .fire 0])
      (.resolveTab 0 (some "No tab with id"))).log =
      (exec (initState 1)
        [.message reqPoorAll 5, .fire 0, .fire 0, .fire 0, .fire 0]).log ∧
    (step (exec (initState 1)
        [.message reqPoorAll 5, .fire 0, .fire 0, .fire 0, .fire 0])
      (.resolveTab 0 (some "No tab with id"))).tasks =
      (exec (initState 1)
        [.message reqPoorAll 5, .fire 0, .fire 0, .fire 0, .fire 0]).tasks.eraseIdx 0 := by
  have h := animateBadges_tab_gone_halts
    (exec (initState 1) [.message reqPoorAll 5, .fire 0, .fire 0, .fire 0, .fire 0])
    0 ⟨5, 0, reqPoorAll⟩ "No tab with id" (by decide)
  exact ⟨h.1, h.2.1, h.2.2.1⟩

theorem animateBadges_non_poor_single_render_witness :
    (step (initState 1) (.message reqGood 5)).tasks = (initState 1).tasks ∧
    (step (initState 1) (.message reqGood 5)).log = (initState 1).log ++
      tagEvents (initState 1).globalAnimationId 5
        (badgeOverallPerf reqGood.passesAllThresholds 5 (initState 1).activeTab) ∧
    (step (initState 1) (.message reqGood 5)).badgeMetricCalls =
      (initState 1).badgeMetricCalls :=
  animateBadges_non_poor_single_render (initState 1) reqGood 5 (by decide)

theorem exec_append (s : SWState) (l1 l2 : List SchedAction) :
    exec s (l1 ++ l2) = exec (exec s l1) l2 := by
  simp [exec, List.foldl_append]

theorem step_fire_singleton (s : SWState) (t : RunTask)
    (h : s.tasks = [.timer t]) :
    step s (.fire 0) = animateBadgesResume t { s with tasks := [] } := by
  unfold step
  rw [h]
  rfl

theorem step_resolveTab_singleton (s : SWState) (t : TabGetTask)
    (h : s.tasks = [.tabGet t]) :
    step s (.resolveTab 0 none) =
      animateBadges t.request t.tabId { s with tasks := [] } := by
  unfold step
  rw [h]
  rfl

theorem animateBadgesResume_current (t : RunTask) (s : SWState)
    (h : tableGet s.animationsByTabId t.tabId = some t.animationId) :
    animateBadgesResume t s =
      (match t.pc with
       | .afterWait1 => metricStep t "lcp" t.request.metrics.lcp.value .afterWait2 s
       | .afterWait2 => metricStep t "fid" t.request.metrics.fid.value .afterWait3 s
       | .afterWait3 => metricStep t "cls" t.request.metrics.cls.value .afterWait4 s
       | .afterWait4 =>
         { s with tasks := s.tasks ++ [.tabGet ⟨t.tabId, t.animationId, t.request⟩] }) := by
  unfold animateBadgesResume
  rw [if_pos h]

set_option maxHeartbeats 1000000 in
/-- C4: one iteration of a `'POOR'` cycle, run without interference,
performs its effects in strict order: the overall verdict badge is
rendered at the start; then, before each metric render in the fixed
order lcp, fid, cls, the run suspends on a 2000 ms timer (the scheduled
task carries `delayMs = 2000`) whose wake re-checks the per-tab
generation; after cls it suspends 2000 ms once more, re-checks the
generation, issues the tab-liveness check, and — the tab existing —
loops back to re-render the overall badge under the next generation. -/
theorem animateBadges_poor_cycle_order (s0 : SWState) (request : Request)
    (T : Nat) (h1 : request.passesAllThresholds = "POOR") (h2 : s0.tasks = []) :
    (exec s0 [.message request T]).tasks =
      [.timer ⟨T, s0.globalAnimationId, request, 2000, .afterWait1⟩] ∧
    (exec s0 [.message request T]).log = s0.log ++
      tagEvents s0.globalAnimationId T
        (badgeOverallPerf request.passesAllThresholds T s0.activeTab) ∧
    (exec s0 [.message request T, .fire 0]).tasks =
      [.timer ⟨T, s0.globalAnimationId, request, 2000, .afterWait2⟩] ∧
    (exec s0 [.message request T, .fire 0]).log =
      (exec s0 [.message request T]).log ++
      tagEvents s0.globalAnimationId T
        (badgeMetric "lcp" request.metrics.lcp.value T s0.activeTab) ∧
    (exec s0 [.message request T, .fire 0, .fire 0]).tasks =
      [.timer ⟨T, s0.globalAnimationId, request, 2000, .afterWait3⟩] ∧
    (exec s0 [.message request T, .fire 0, .fire 0]).log =
      (exec s0 [.message request T, .fire 0]).log ++
      tagEvents s0.globalAnimationId T
        (badgeMetric "fid" request.metrics.fid.value T s0.activeTab) ∧
    (exec s0 [.message request T, .fire 0, .fire 0, .fire 0]).tasks =
      [.timer ⟨T, s0.globalAnimationId, request, 2000, .afterWait4⟩] ∧
    (exec s0 [.message request T, .fire 0, .fire 0, .fire 0]).log =
      (exec s0 [.message request T, .fire 0, .fire 0]).log ++
      tagEvents s0.globalAnimationId T
        (badgeMetric "cls" request.metrics.cls.value T s0.activeTab) ∧
    (exec s0 [.message request T, .fire 0, .fire 0, .fire 0, .fire 0]).tasks =
      [.tabGet ⟨T, s0.globalAnimationId, request⟩] ∧
    (exec s0 [.message request T, .fire 0, .fire 0, .fire 0, .fire 0]).log =
      (exec s0 [.message request T, .fire 0, .fire 0, .fire 0]).log ∧
    (exec s0 [.message request T, .fire 0, .fire 0, .fire 0, .fire 0,
      .resolveTab 0 none]).tasks =
      [.timer ⟨T, s0.globalAnimationId + 1, request, 2000, .afterWait1⟩] ∧
    (exec s0 [.message request T, .fire 0, .fire 0, .fire 0, .fire 0,
      .resolveTab 0 none]).log =
      (exec s0 [.message request T, .fire 0, .fire 0, .fire 0, .fire 0]).log ++
      tagEvents (s0.globalAnimationId + 1) T
        (badgeOverallPerf request.passesAllThresholds T s0.activeTab) := by
  have e1 : exec s0 [.message request T] =
      ⟨s0.globalAnimationId + 1,
       tableSet s0.animationsByTabId T s0.globalAnimationId,
       [.timer ⟨T, s0.globalAnimationId, request, delay, .afterWait1⟩],
       s0.activeTab,
       s0.log ++ tagEvents s0.globalAnimationId T
         (badgeOverallPerf request.passesAllThresholds T s0.activeTab),
       s0.startsLog ++ [(T, s0.globalAnimationId)],
       s0.badgeMetricCalls⟩ := by
    show animateBadges request T s0 = _
    unfold animateBadges
    dsimp only
    rw [if_pos h1, h2]
    rfl
  have hget := tableGet_set_self s0.animationsByTabId T s0.globalAnimationId
  have e2 : exec s0 [.message request T, .fire 0] =
      ⟨s0.globalAnimationId + 1,
       tableSet s0.animationsByTabId T s0.globalAnimationId,
       [.timer ⟨T, s0.globalAnimationId, request, delay, .afterWait2⟩],
       s0.activeTab,
       (s0.log ++ tagEvents s0.globalAnimationId T
         (badgeOverallPerf request.passesAllThresholds T s0.activeTab)) ++
        tagEvents s0.globalAnimationId T
          (badgeMetric "lcp" request.metrics.lcp.value T s0.activeTab),
       s0.startsLog ++ [(T, s0.globalAnimationId)],
       s0.badgeMetricCalls ++ [("lcp", request.metrics.lcp.value, T)]⟩ := by
    rw [show ([.message request T, .fire 0] : List SchedAction) =
        [.message request T] ++ [.fire 0] from rfl, exec_append, e1,
      show ∀ s : SWState, exec s [.fire 0] = step s (.fire 0) from fun s => rfl,
      step_fire_singleton _ _ rfl, animateBadgesResume_current _ _ hget]
    rfl
  have e3 : exec s0 [.message request T, .fire 0, .fire 0] =
      ⟨s0.globalAnimationId + 1,
       tableSet s0.animationsByTabId T s0.globalAnimationId,
       [.timer ⟨T, s0.globalAnimationId, request, delay, .afterWait3⟩],
       s0.activeTab,
       ((s0.log ++ tagEvents s0.globalAnimationId T
         (badgeOverallPerf request.passesAllThresholds T s0.activeTab)) ++
        tagEvents s0.globalAnimationId T
          (badgeMetric "lcp" request.metrics.lcp.value T s0.activeTab)) ++
        tagEvents s0.globalAnimationId T
          (badgeMetric "fid" request.metrics.fid.value T s0.activeTab),
       s0.startsLog ++ [(T, s0.globalAnimationId)],
       (s0.badgeMetricCalls ++ [("lcp", request.metrics.lcp.value, T)]) ++
         [("fid", request.metrics.fid.value, T)]⟩ := by
    rw [show ([.message request T, .fire 0, .fire 0] : List SchedAction) =
        [.message request T, .fire 0] ++ [.fire 0] from rfl, exec_append, e2,
      show ∀ s : SWState, exec s [.fire 0] = step s (.fire 0) from fun s => rfl,
      step_fire_singleton _ _ rfl, animateBadgesResume_current _ _ hget]
    rfl
  have e4 : exec s0 [.message request T, .fire 0, .fire 0, .fire 0] =
      ⟨s0.globalAnimationId + 1,
       tableSet s0.animationsByTabId T s0.globalAnimationId,
       [.timer ⟨T, s0.globalAnimationId, request, delay, .afterWait4⟩],
       s0.activeTab,
       (((s0.log ++ tagEvents s0.globalAnimationId T
         (badgeOverallPerf request.passesAllThresholds T s0.activeTab)) ++
        tagEvents s0.globalAnimationId T
          (badgeMetric "lcp" request.metrics.lcp.value T s0.activeTab)) ++
        tagEvents s0.globalAnimationId T
          (badgeMetric "fid" request.metrics.fid.value T s0.activeTab)) ++
        tagEvents s0.globalAnimationId T
          (badgeMetric "cls" request.metrics.cls.value T s0.activeTab),
       s0.startsLog ++ [(T, s0.globalAnimationId)],
       ((s0.badgeMetricCalls ++ [("lcp", request.metrics.lcp.value, T)]) ++
         [("fid", request.metrics.fid.value, T)]) ++
         [("cls", request.metrics.cls.value, T)]⟩ := by
    rw [show ([.message request T, .fire 0, .fire 0, .fire 0] : List SchedAction) =
        [.message request T, .fire 0, .fire 0] ++ [.fire 0] from rfl, exec_append, e3,
      show ∀ s : SWState, exec s [.fire 0] = step s (.fire 0) from fun s => rfl,
      step_fire_singleton _ _ rfl, animateBadgesResume_current _ _ hget]
    rfl
  have e5 : exec s0 [.message request T, .fire 0, .fire 0, .fire 0, .fire 0] =
      ⟨s0.globalAnimationId + 1,
       tableSet s0.animationsByTabId T s0.globalAnimationId,
       [.tabGet ⟨T, s0.globalAnimationId, request⟩],
       s0.activeTab,
       (((s0.log ++ tagEvents s0.globalAnimationId T
         (badgeOverallPerf request.passesAllThresholds T s0.activeTab)) ++
        tagEvents s0.globalAnimationId T
          (badgeMetric "lcp" request.metrics.lcp.value T s0.activeTab)) ++
        tagEvents s0.globalAnimationId T
          (badgeMetric "fid" request.metrics.fid.value T s0.activeTab)) ++
        tagEvents s0.globalAnimationId T
          (badgeMetric "cls" request.metrics.cls.value T s0.activeTab),
       s0.startsLog ++ [(T, s0.globalAnimationId)],
       ((s0.badgeMetricCalls ++ [("lcp", request.metrics.lcp.value, T)]) ++
         [("fid", request.metrics.fid.value, T)]) ++
         [("cls", request.metrics.cls.value, T)]⟩ := by
    rw [show ([.message request T, .fire 0, .fire 0, .fire 0, .fire 0] :
          List SchedAction) =
        [.message request T, .fire 0, .fire 0, .fire 0] ++ [.fire 0] from rfl,
      exec_append, e4,
      show ∀ s : SWState, exec s [.fire 0] = step s (.fire 0) from fun s => rfl,
      step_fire_singleton _ _ rfl, animateBadgesResume_current _ _ hget]
    rfl
  have e6 : exec s0 [.message request T, .fire 0, .fire 0, .fire 0, .fire 0,
      .resolveTab 0 none] =
      ⟨s0.globalAnimationId + 2,
       tableSet (tableSet s0.animationsByTabId T s0.globalAnimationId) T
         (s0.globalAnimationId + 1),
       [.timer ⟨T, s0.globalAnimationId + 1, request, delay, .afterWait1⟩],
       s0.activeTab,
       ((((s0.log ++ tagEvents s0.globalAnimationId T
         (badgeOverallPerf request.passesAllThresholds T s0.activeTab)) ++
        tagEvents s0.globalAnimationId T
          (badgeMetric "lcp" request.metrics.lcp.value T s0.activeTab)) ++
        tagEvents s0.globalAnimationId T
          (badgeMetric "fid" request.metrics.fid.value T s0.activeTab)) ++
        tagEvents s0.globalAnimationId T
          (badgeMetric "cls" request.metrics.cls.value T s0.activeTab)) ++
        tagEvents (s0.globalAnimationId + 1) T
          (badgeOverallPerf request.passesAllThresholds T s0.activeTab),
       (s0.startsLog ++ [(T, s0.globalAnimationId)]) ++
         [(T, s0.globalAnimationId + 1)],
       ((s0.badgeMetricCalls ++ [("lcp", request.metrics.lcp.value, T)]) ++
         [("fid", request.metrics.fid.value, T)]) ++
         [("cls", request.metrics.cls.value, T)]⟩ := by
    rw [show ([.message request T, .fire 0, .fire 0, .fire 0, .fire 0,
          .resolveTab 0 none] : List SchedAction) =
        [.message request T, .fire 0, .fire 0, .fire 0, .fire 0] ++
          [.resolveTab 0 none] from rfl, exec_append, e5,
      show ∀ s : SWState, exec s [.resolveTab 0 none] = step s (.resolveTab 0 none)
        from fun s => rfl,
      step_resolveTab_singleton _ _ rfl]
    unfold animateBadges
    dsimp only
    rw [if_pos h1]
    rfl
  refine ⟨?_, ?_, ?_, ?_, ?_, ?_, ?_, ?_, ?_, ?_, ?_, ?_⟩
  · rw [e1]
    rfl
  · rw [e1]
  · rw [e2]
    rfl
  · rw [e2, e1]
  · rw [e3]
    rfl
  · rw [e3, e2]
  · rw [e4]
    rfl
  · rw [e4, e3]
  · rw [e5]
  · rw [e5, e4]
  · rw [e6]
    rfl
  · rw [e6, e5]

theorem animateBadges_poor_cycle_order_witness :
    (exec (initState 1) [.message reqPoorAll 5]).tasks =
      [.timer ⟨5, 0, reqPoorAll, 2000, .afterWait1⟩] ∧
    (exec (initState 1)
      [.message reqPoorAll 5, .fire 0, .fire 0, .fire 0, .fire 0]).tasks =
      [.tabGet ⟨5, 0, reqPoorAll⟩] ∧
    (exec (initState 1)
      [.message reqPoorAll 5, .fire 0, .fire 0, .fire 0, .fire 0,
       .resolveTab 0 none]).tasks =
      [.timer ⟨5, 1, reqPoorAll, 2000, .afterWait1⟩] := by
  have h := animateBadges_poor_cycle_order (initState 1) reqPoorAll 5
    (by decide) (by decide)
  exact ⟨h.1, h.2.2.2.2.2.2.2.2.1, h.2.2.2.2.2.2.2.2.2.2.1⟩

/-- C8 counterexample: a metric render for lcp with value 2500 sets no
badge text at all — 2500 does not strictly exceed the 2500 threshold, so
`badgeMetric` returns before any `chrome.action` call; in particular no
`setBadgeText "2.50"` happens.  (Likewise fid 99.999 is at or below 100
and renders nothing.) -/
theorem badgeMetric_lcp_at_threshold_renders_nothing :
    badgeMetric "lcp" 2500 7 1 = [] ∧
    Action.setBadgeText "2.50" 7 ∉ badgeMetric "lcp" 2500 7 1 ∧
    badgeMetric "fid" (mkRat 99999 1000) 7 1 = [] := by
  decide

/-- C8 amended: the badge text, when a metric badge is actually
rendered, rounds (not truncates) to two decimal places in the metric's
display unit — cls 0.1234 renders text `"0.12"` and cls 0.456 renders
`"0.46"` (truncation would give `"0.45"`); the formatting function maps
lcp's scaled value 2500/1000 to `"2.50"` and fid's 99.999 to `"100.00"`,
but at those two values no badge is rendered, because they do not
strictly exceed their thresholds. -/
theorem badgeMetric_text_rounding :
    (0.1234 : ℚ) = mkRat 1234 10000 ∧
    badgeMetric "cls" (mkRat 1234 10000) 7 1 =
      [.setIcon "../../icons/slow128w-cls.png" 7,
       .setBadgeBackgroundColor "#000" 7,
       .setBadgeText "0.12" 7] ∧
    (0.456 : ℚ) = mkRat 456 1000 ∧
    badgeMetric "cls" (mkRat 456 1000) 7 1 =
      [.setIcon "../../icons/slow128w-cls.png" 7,
       .setBadgeBackgroundColor "#000" 7,
       .setBadgeText "0.46" 7] ∧
    toFixed2 (2500 / 1000) = "2.50" ∧
    (99.999 : ℚ) = mkRat 99999 1000 ∧
    toFixed2 (mkRat 99999 1000) = "100.00" ∧
    badgeMetric "lcp" 2500 7 1 = [] ∧
    badgeMetric "fid" (mkRat 99999 1000) 7 1 = [] := by
  refine ⟨?_, by decide, ?_, by decide, ?_, ?_, by decide, by decide, by decide⟩
  · rw [Rat.mkRat_eq_div]; norm_num
  · rw [Rat.mkRat_eq_div]; norm_num
  · simp only [toFixed2]; norm_num; rfl
  · rw [Rat.mkRat_eq_div]; norm_num

/-- C9: `hashCode` maps the empty string to the empty string, is
deterministic, and on a non-empty string returns the decimal
stringification of the rolling hash `hash = hash * 31 + charCode`,
wrapped to a signed 32-bit integer at every step (the source's
`(hash << 5) - hash + char` followed by `hash & hash` computes exactly
that). -/
theorem hashCode_spec :
    hashCode [] = "" ∧
    (∀ s t : List Nat, s = t → hashCode s = hashCode t) ∧
    (∀ s : List Nat, s ≠ [] →
      hashCode s =
        toString (s.foldl (fun (hash : Int) (c : Nat) => toInt32 (31 * hash + c)) 0)) := by
  refine ⟨rfl, fun s t h => h ▸ rfl, fun s h => ?_⟩
  have hstep : hashStep = fun (hash : Int) (c : Nat) => toInt32 (31 * hash + c) := by
    funext hash c
    unfold hashStep toInt32
    omega
  rw [hashCode, if_neg (by simpa using h), hstep]

theorem hashCode_spec_witness :
    hashCode [104, 105] =
      toString (List.foldl (fun (hash : Int) (c : Nat) => toInt32 (31 * hash + c)) 0
        [104, 105]) ∧
    hashCode [104, 105] = "3329" :=
  ⟨hashCode_spec.2.2 [104, 105] (by decide), by decide⟩

/-- C10: called with the `'GOOD'` category, `badgeOverallPerf` performs
only a `setIcon` call — badge text and background color are untouched,
so text from an earlier failing-metric render persists; the `'POOR'`
branch and the default branch each clear the badge text with
`setBadgeText ''`. -/
theorem badgeOverallPerf_good_preserves_text (tabid activeTab : Nat)
    (st : BadgeState) :
    badgeOverallPerf "GOOD" tabid activeTab =
      [.setIcon "../../icons/fast128w.png" (currentTabOf tabid activeTab)] ∧
    (applyActions st (badgeOverallPerf "GOOD" tabid activeTab)).text = st.text ∧
    (applyActions st (badgeOverallPerf "GOOD" tabid activeTab)).bgColor =
      st.bgColor ∧
    badgeOverallPerf "POOR" tabid activeTab =
      [.setIcon "../../icons/slow128w.png" (currentTabOf tabid activeTab),
       .setBadgeText "" (currentTabOf tabid activeTab)] ∧
    (∀ c, c ≠ "POOR" → c ≠ "GOOD" →
      badgeOverallPerf c tabid activeTab =
        [.setIcon "../../icons/default128w.png" (currentTabOf tabid activeTab),
         .setBadgeText "" (currentTabOf tabid activeTab)]) ∧
    (applyActions (applyActions st (badgeMetric "fid" 200 tabid activeTab))
        (badgeOverallPerf "GOOD" tabid activeTab)).text = toFixed2 200 := by
  refine ⟨rfl, rfl, rfl, rfl, fun c h1 h2 => ?_, ?_⟩
  · unfold badgeOverallPerf
    dsimp only
    split
    · exact absurd rfl h1
    · exact absurd rfl h2
    · rfl
  · rw [badgeMetric_fid_gt 200 tabid activeTab (by decide)]
    rfl

theorem badgeOverallPerf_good_preserves_text_witness :
    badgeOverallPerf "GOOD" 7 1 = [.setIcon "../../icons/fast128w.png" 7] ∧
    (applyActions ⟨"icon", "1.23", "#000"⟩ (badgeOverallPerf "GOOD" 7 1)).text =
      "1.23" ∧
    badgeOverallPerf "UNKNOWN" 7 1 =
      [.setIcon "../../icons/default128w.png" 7, .setBadgeText "" 7] := by
  have h := badgeOverallPerf_good_preserves_text 7 1 ⟨"icon", "1.23", "#000"⟩
  exact ⟨h.1, h.2.1, h.2.2.2.2.1 "UNKNOWN" (by decide) (by decide)⟩

end WebVitals
